import Mathlib

/-!
# Verification of the hyperform polyfill core

Shallow embedding of the hyperform sources:
* `src/unnamed/part_000` — the per-property installer (`tools/property_installer`)
  and the unit tests of the hook registry (`components/hooks`);
* `src/unnamed/part_001` — `tools/catch_submit` (click / keypress listeners);
* `src/src/hyperform.js` — the public entry point and the `Wrapper` class.

JavaScript property tables are modelled as association lists of
(name, descriptor) pairs; prototype-inherited properties are kept in a second
list.  A descriptor is identified with the value observed when the property is
read (for a data descriptor the value itself, for an accessor what the getter
returns); all properties are taken to be configurable, as the descriptors the
polyfill manipulates are.  Reading `.hyperform` on `undefined`/`null` throws a
TypeError, on anything else it yields the marker flag (falsy on primitives).
-/

namespace Hyperform

/-- A JavaScript runtime error.  The only one the modelled code can raise is
`TypeError` (from `Object.defineProperty(el, k, undefined)` and from reading a
member of `undefined`/`null`). -/
inductive JsError where
  | typeError
deriving DecidableEq, Repr

/-- The values the model distinguishes: `undefined`, `null`, a primitive
(number/string/boolean — member access works via boxing and yields a falsy
`hyperform` field), or an object whose `hyperform` marker flag is `b`. -/
inductive Value where
  | undefinedV
  | nullv
  | prim
  | obj (hyperform : Bool)
deriving DecidableEq, Repr

/-- `v.hyperform` as a truthiness test: throws on `undefined`/`null`, falsy on
primitives, the marker flag on objects. -/
def hyperformTruthy : Value → Except JsError Bool
  | .undefinedV => .error .typeError
  | .nullv => .error .typeError
  | .prim => .ok false
  | .obj b => .ok b

/-- A property descriptor, identified with the value reading the property
yields. -/
structure Descriptor where
  read : Value
deriving DecidableEq, Repr

/-- An element: its own property table and the properties it inherits from its
prototype chain. -/
structure Element where
  own : List (String × Descriptor)
  proto : List (String × Descriptor)
deriving DecidableEq, Repr

/-- Lookup in a property table: the first binding of the name wins. -/
def tableGet : List (String × Descriptor) → String → Option Descriptor
  | [], _ => none
  | kv :: t, q => if kv.1 = q then some kv.2 else tableGet t q

/-- Remove every binding of a name from a property table. -/
def tableDelete : List (String × Descriptor) → String → List (String × Descriptor)
  | [], _ => []
  | kv :: t, q => if kv.1 = q then tableDelete t q else kv :: tableDelete t q

/-- `Object.getOwnPropertyDescriptor(e, k)` — own properties only. -/
def getOwn (e : Element) (k : String) : Option Descriptor :=
  tableGet e.own k

/-- Lookup along the prototype chain only. -/
def protoGet (e : Element) (k : String) : Option Descriptor :=
  tableGet e.proto k

/-- `k in e` — own or inherited. -/
def propIn (e : Element) (k : String) : Prop :=
  (getOwn e k).isSome = true ∨ (protoGet e k).isSome = true

instance (e : Element) (k : String) : Decidable (propIn e k) := by
  unfold propIn; infer_instance

/-- `e[k]` — the value read from the property: own first, then the prototype
chain, `undefined` when absent. -/
def readProp (e : Element) (k : String) : Value :=
  match getOwn e k with
  | some d => d.read
  | none =>
    match protoGet e k with
    | some d => d.read
    | none => .undefinedV

/-- `delete e[k]` — removes the own property (all properties are modelled as
configurable). -/
def deleteProp (e : Element) (k : String) : Element :=
  ⟨tableDelete e.own k, e.proto⟩

/-- `Object.defineProperty(e, k, d)` — (re)defines the own property `k`. -/
def defineProperty (e : Element) (k : String) (d : Descriptor) : Element :=
  ⟨tableDelete e.own k ++ [(k, d)], e.proto⟩

/-- The per-property installer of `src/unnamed/part_000` (the default export of
`tools/property_installer`), applied to an element:

```js
if (property in element && ! element[property].hyperform) {
  Object.defineProperty(element, '_original_'+property,
                        Object.getOwnPropertyDescriptor(element, property));
}
delete element[property];
Object.defineProperty(element, property, descriptor);
```

When the property is present but not an own property,
`Object.getOwnPropertyDescriptor` returns `undefined` and
`Object.defineProperty` throws a TypeError; reading `.hyperform` on an
`undefined`/`null` valued property also throws. -/
def install_property (property : String) (descriptor : Descriptor)
    (element : Element) : Except JsError Element := do
  let element ←
    if propIn element property then do
      let hf ← hyperformTruthy (readProp element property)
      if ¬ hf then
        match getOwn element property with
        | some d => pure (defineProperty element ("_original_" ++ property) d)
        | none => Except.error .typeError
      else
        pure element
    else
      pure element
  pure (defineProperty (deleteProp element property) property descriptor)

/-- Rewriting `install_property` to explicit case analysis for proofs:
the monadic bind on `hyperformTruthy` is exception propagation. -/
theorem install_property_def (p : String) (d : Descriptor) (e : Element) :
    install_property p d e =
      if propIn e p then
        match hyperformTruthy (readProp e p) with
        | .error err => .error err
        | .ok hf =>
          if ¬ hf then
            match getOwn e p with
            | some d0 =>
              Except.ok (defineProperty
                (deleteProp (defineProperty e ("_original_" ++ p) d0) p) p d)
            | none => .error .typeError
          else Except.ok (defineProperty (deleteProp e p) p d)
      else Except.ok (defineProperty (deleteProp e p) p d) := by
  unfold install_property
  by_cases h : propIn e p
  · rw [if_pos h, if_pos h]
    cases hE : hyperformTruthy (readProp e p) with
    | error err => rfl
    | ok hf =>
      cases hf
      · cases hG : getOwn e p <;> rfl
      · rfl
  · rw [if_neg h, if_neg h]
    rfl

/-- Modelled from the spec: the per-property uninstaller
(`tools/property_uninstaller`, imported by the wrapper but absent from `src/`).
Per the spec, "Uninstall reverses this per property, per element" and the
original descriptor "is preserved under a renamed key so it can be restored on
uninstall": the uninstaller removes the polyfill property and, when a backup
exists under `'_original_' + property`, restores it under the property name
and removes the renamed key. -/
def uninstall_property (element : Element) (property : String) : Element :=
  let element := deleteProp element property
  match getOwn element ("_original_" ++ property) with
  | some d =>
    deleteProp (defineProperty element property d) ("_original_" ++ property)
  | none => element

theorem tableGet_tableDelete (l : List (String × Descriptor)) (k q : String) :
    tableGet (tableDelete l k) q = if q = k then none else tableGet l q := by
  induction l with
  | nil => simp [tableGet, tableDelete]
  | cons kv t ih =>
    by_cases h1 : kv.1 = k <;> by_cases h2 : kv.1 = q <;>
      simp_all [tableDelete, tableGet]

theorem tableGet_overwrite (l : List (String × Descriptor)) (k : String)
    (d : Descriptor) (q : String) :
    tableGet (tableDelete l k ++ [(k, d)]) q
      = if q = k then some d else tableGet l q := by
  induction l with
  | nil =>
    simp only [tableDelete, List.nil_append, tableGet]
    by_cases h : q = k
    · simp [h]
    · rw [if_neg (fun hkq => h (Eq.symm hkq)), if_neg h]
  | cons kv t ih =>
    by_cases h1 : kv.1 = k <;> by_cases h2 : kv.1 = q <;>
      simp_all [tableDelete, tableGet]

theorem getOwn_deleteProp (e : Element) (k q : String) :
    getOwn (deleteProp e k) q = if q = k then none else getOwn e q :=
  tableGet_tableDelete e.own k q

theorem getOwn_defineProperty (e : Element) (k : String) (d : Descriptor)
    (q : String) :
    getOwn (defineProperty e k d) q = if q = k then some d else getOwn e q :=
  tableGet_overwrite e.own k d q

theorem orig_key_ne (p : String) : "_original_" ++ p ≠ p := by
  intro h
  have hlen := congrArg String.length h
  rw [String.length_append] at hlen
  have h10 : "_original_".length = 10 := rfl
  omega

theorem propIn_of_getOwn {e : Element} {p : String} {d : Descriptor}
    (h : getOwn e p = some d) : propIn e p :=
  Or.inl (by rw [h]; rfl)

theorem getOwn_eq_none_of_not_propIn {e : Element} {p : String}
    (h : ¬ propIn e p) : getOwn e p = none := by
  cases hg : getOwn e p with
  | none => rfl
  | some d => exact absurd (propIn_of_getOwn hg) h

theorem readProp_own {e : Element} {p : String} {d : Descriptor}
    (h : getOwn e p = some d) : readProp e p = d.read := by
  unfold readProp
  rw [h]

theorem install_property_absent {p : String} {d : Descriptor} {e : Element}
    (h : ¬ propIn e p) :
    install_property p d e = Except.ok (defineProperty (deleteProp e p) p d) := by
  rw [install_property_def, if_neg h]

theorem install_property_own_unmarked {p : String} {d : Descriptor}
    {e : Element} {d0 : Descriptor} (hown : getOwn e p = some d0)
    (hnp : hyperformTruthy d0.read = Except.ok false) :
    install_property p d e
      = Except.ok (defineProperty
          (deleteProp (defineProperty e ("_original_" ++ p) d0) p) p d) := by
  rw [install_property_def, if_pos (propIn_of_getOwn hown), readProp_own hown,
    hnp, hown]
  rfl

theorem install_property_marked {p : String} {d : Descriptor} {e : Element}
    (hin : propIn e p)
    (hm : hyperformTruthy (readProp e p) = Except.ok true) :
    install_property p d e = Except.ok (defineProperty (deleteProp e p) p d) := by
  rw [install_property_def, if_pos hin, hm]
  rfl

/-- C1 (amended): for any property and element where no own
`'_original_' + property` key is present and the property is either absent or
an own, non-polyfill property whose value supports the marker check, the
installer of `part_000` succeeds and the (spec-modelled) per-property
uninstaller restores the element's own-property table pointwise. -/
theorem c1_install_uninstall_identity (p : String) (d : Descriptor)
    (e : Element)
    (hback : getOwn e ("_original_" ++ p) = none)
    (hcur : ¬ propIn e p ∨
      ∃ d0, getOwn e p = some d0 ∧ hyperformTruthy d0.read = Except.ok false) :
    ∃ e1, install_property p d e = Except.ok e1 ∧
      ∀ q, getOwn (uninstall_property e1 p) q = getOwn e q := by
  have hne := orig_key_ne p
  rcases hcur with habs | ⟨d0, hown, hnp⟩
  · refine ⟨_, install_property_absent habs, ?_⟩
    have hnone : getOwn (deleteProp (defineProperty (deleteProp e p) p d) p)
        ("_original_" ++ p) = none := by
      rw [getOwn_deleteProp, if_neg hne, getOwn_defineProperty, if_neg hne,
        getOwn_deleteProp, if_neg hne, hback]
    have hu : uninstall_property (defineProperty (deleteProp e p) p d) p
        = deleteProp (defineProperty (deleteProp e p) p d) p := by
      simp only [uninstall_property]
      rw [hnone]
    intro q
    rw [hu]
    simp only [getOwn_deleteProp, getOwn_defineProperty]
    by_cases hq : q = p
    · subst hq
      simp [getOwn_eq_none_of_not_propIn habs]
    · simp [hq]
  · refine ⟨_, install_property_own_unmarked hown hnp, ?_⟩
    have hfind : getOwn (deleteProp (defineProperty
        (deleteProp (defineProperty e ("_original_" ++ p) d0) p) p d) p)
        ("_original_" ++ p) = some d0 := by
      rw [getOwn_deleteProp, if_neg hne, getOwn_defineProperty, if_neg hne,
        getOwn_deleteProp, if_neg hne, getOwn_defineProperty, if_pos rfl]
    have hu : uninstall_property (defineProperty (deleteProp (defineProperty e
        ("_original_" ++ p) d0) p) p d) p
        = deleteProp (defineProperty (deleteProp (defineProperty (deleteProp
            (defineProperty e ("_original_" ++ p) d0) p) p d) p) p d0)
            ("_original_" ++ p) := by
      simp only [uninstall_property]
      rw [hfind]
    intro q
    rw [hu]
    simp only [getOwn_deleteProp, getOwn_defineProperty]
    by_cases hq1 : q = "_original_" ++ p
    · rw [if_pos hq1, hq1, hback]
    · by_cases hq2 : q = p
      · subst hq2
        rw [if_neg hq1, if_pos rfl, hown]
      · simp [hq1, hq2]

theorem c1_install_uninstall_identity_witness :
    ∃ e1, install_property "checkValidity" (Descriptor.mk (Value.obj true))
        (Element.mk [("checkValidity", Descriptor.mk (Value.obj false))] [])
        = Except.ok e1 ∧
      ∀ q, getOwn (uninstall_property e1 "checkValidity") q
        = getOwn
            (Element.mk [("checkValidity", Descriptor.mk (Value.obj false))] [])
            q :=
  c1_install_uninstall_identity "checkValidity" (Descriptor.mk (Value.obj true))
    (Element.mk [("checkValidity", Descriptor.mk (Value.obj false))] [])
    rfl
    (Or.inr ⟨Descriptor.mk (Value.obj false), rfl, rfl⟩)

/-- C1 (counterexample): on an element that already carries an own
`_original_checkValidity` property, install followed by uninstall is not the
identity on the property table — the pre-existing `_original_checkValidity`
binding is destroyed. -/
theorem c1_counterexample :
    (install_property "checkValidity" (Descriptor.mk (Value.obj true))
        (Element.mk [("checkValidity", Descriptor.mk (Value.obj false)),
                     ("_original_checkValidity", Descriptor.mk Value.prim)]
          [])).map
        (fun e1 => getOwn (uninstall_property e1 "checkValidity")
          "_original_checkValidity")
      = Except.ok none
    ∧ getOwn (Element.mk [("checkValidity", Descriptor.mk (Value.obj false)),
          ("_original_checkValidity", Descriptor.mk Value.prim)] [])
        "_original_checkValidity" = some (Descriptor.mk Value.prim) :=
  ⟨rfl, rfl⟩

/-- C2 (amended): the function returned by the property installer, applied to
an element whose property is an *own*, non-polyfill property with a value on
which the marker check does not throw, backs the current descriptor up under
`'_original_' + property`, overwrites the property with the supplied
descriptor, and leaves every other own property unchanged.  (When the property
exists only on the prototype, the installer instead throws a TypeError — see
the counterexample.) -/
theorem c2_installer_backs_up_and_overwrites (p : String) (d : Descriptor)
    (e : Element) (d0 : Descriptor)
    (hown : getOwn e p = some d0)
    (hnp : hyperformTruthy d0.read = Except.ok false) :
    ∃ e1, install_property p d e = Except.ok e1 ∧
      getOwn e1 ("_original_" ++ p) = some d0 ∧
      getOwn e1 p = some d ∧
      ∀ q, q ≠ p → q ≠ "_original_" ++ p → getOwn e1 q = getOwn e q := by
  have hne := orig_key_ne p
  refine ⟨_, install_property_own_unmarked hown hnp, ?_, ?_, ?_⟩
  · simp [getOwn_deleteProp, getOwn_defineProperty, hne]
  · simp [getOwn_deleteProp, getOwn_defineProperty]
  · intro q hq1 hq2
    simp [getOwn_deleteProp, getOwn_defineProperty, hq1, hq2]

theorem c2_installer_backs_up_and_overwrites_witness :
    ∃ e1, install_property "checkValidity" (Descriptor.mk (Value.obj true))
        (Element.mk [("checkValidity", Descriptor.mk Value.prim)] [])
        = Except.ok e1 ∧
      getOwn e1 "_original_checkValidity" = some (Descriptor.mk Value.prim) ∧
      getOwn e1 "checkValidity" = some (Descriptor.mk (Value.obj true)) ∧
      ∀ q, q ≠ "checkValidity" → q ≠ "_original_checkValidity" →
        getOwn e1 q
          = getOwn (Element.mk [("checkValidity", Descriptor.mk Value.prim)] [])
              q :=
  c2_installer_backs_up_and_overwrites "checkValidity"
    (Descriptor.mk (Value.obj true))
    (Element.mk [("checkValidity", Descriptor.mk Value.prim)] [])
    (Descriptor.mk Value.prim) rfl rfl

/-- C2 (counterexample): when the property is inherited from the prototype and
does not carry the polyfill marker, the installer does not back up and
overwrite — it throws a TypeError, because
`Object.getOwnPropertyDescriptor(element, property)` is `undefined` for an
inherited property and `Object.defineProperty` rejects `undefined`. -/
theorem c2_counterexample :
    install_property "checkValidity" (Descriptor.mk (Value.obj true))
        (Element.mk [] [("checkValidity", Descriptor.mk (Value.obj false))])
      = Except.error JsError.typeError :=
  rfl

/-- C3: when the current value of the property on the element carries a truthy
`hyperform` marker, installation skips the backup step: it succeeds (no
structured error), leaves the `'_original_' + property` slot exactly as it
was, and overwrites the property with the supplied descriptor; consequently a
repeated installation of a marked polyfill descriptor never replaces the
preserved original descriptor. -/
theorem c3_marked_skips_backup (p : String) (d : Descriptor) (e : Element)
    (hin : propIn e p)
    (hm : hyperformTruthy (readProp e p) = Except.ok true) :
    ∃ e1, install_property p d e = Except.ok e1 ∧
      getOwn e1 ("_original_" ++ p) = getOwn e ("_original_" ++ p) ∧
      getOwn e1 p = some d ∧
      (∀ q, q ≠ p → getOwn e1 q = getOwn e q) ∧
      (d.read = Value.obj true →
        ∃ e2, install_property p d e1 = Except.ok e2 ∧
          getOwn e2 ("_original_" ++ p) = getOwn e ("_original_" ++ p)) := by
  have hne := orig_key_ne p
  refine ⟨_, install_property_marked hin hm, ?_, ?_, ?_, ?_⟩
  · simp [getOwn_deleteProp, getOwn_defineProperty, hne]
  · simp [getOwn_deleteProp, getOwn_defineProperty]
  · intro q hq
    simp [getOwn_deleteProp, getOwn_defineProperty, hq]
  · intro hd
    have hown1 : getOwn (defineProperty (deleteProp e p) p d) p = some d := by
      rw [getOwn_defineProperty, if_pos rfl]
    have hm1 : hyperformTruthy
        (readProp (defineProperty (deleteProp e p) p d) p) = Except.ok true := by
      rw [readProp_own hown1, hd]
      rfl
    refine ⟨_, install_property_marked (propIn_of_getOwn hown1) hm1, ?_⟩
    simp [getOwn_deleteProp, getOwn_defineProperty, hne]

theorem c3_marked_skips_backup_witness :
    ∃ e1, install_property "checkValidity" (Descriptor.mk (Value.obj true))
        (Element.mk [("checkValidity", Descriptor.mk (Value.obj true)),
                     ("_original_checkValidity", Descriptor.mk Value.prim)] [])
        = Except.ok e1 ∧
      getOwn e1 "_original_checkValidity"
        = getOwn (Element.mk
            [("checkValidity", Descriptor.mk (Value.obj true)),
             ("_original_checkValidity", Descriptor.mk Value.prim)] [])
            "_original_checkValidity" ∧
      getOwn e1 "checkValidity" = some (Descriptor.mk (Value.obj true)) ∧
      (∀ q, q ≠ "checkValidity" →
        getOwn e1 q
          = getOwn (Element.mk
              [("checkValidity", Descriptor.mk (Value.obj true)),
               ("_original_checkValidity", Descriptor.mk Value.prim)] []) q) ∧
      ((Descriptor.mk (Value.obj true)).read = Value.obj true →
        ∃ e2, install_property "checkValidity"
            (Descriptor.mk (Value.obj true)) e1 = Except.ok e2 ∧
          getOwn e2 "_original_checkValidity"
            = getOwn (Element.mk
                [("checkValidity", Descriptor.mk (Value.obj true)),
                 ("_original_checkValidity", Descriptor.mk Value.prim)] [])
                "_original_checkValidity") :=
  c3_marked_skips_backup "checkValidity" (Descriptor.mk (Value.obj true))
    (Element.mk [("checkValidity", Descriptor.mk (Value.obj true)),
                 ("_original_checkValidity", Descriptor.mk Value.prim)] [])
    (Or.inl rfl) rfl

/-! ## The hook registry

`components/hooks` is imported by the tests in `part_000` but is not itself
under `src/`; it is modelled from the spec: "mapping from hook name to ordered
list of callback functions; callbacks invoked with a shared context ...
`add_hook(name, fn)`, `remove_hook(name, fn)`, `call_hook(name, value,
context)` — synchronous, single-threaded, fan-out to all registered callbacks
with `this` bound to a context object carrying `{state, hook}`; return value
is the original input unless a callback overrides it."  The registry is passed
explicitly instead of living in module state. -/

/-- The `this` context of a hook callback: `{state, hook}` — the running value
and the hook's name. -/
structure HookContext (V : Type) where
  state : V
  hook : String

/-- A hook callback.  JavaScript functions are removed by identity; `id`
models that identity.  `fn` receives the `this` context and the dispatched
value; `some v` overrides the running value, `none` (JS `undefined`) leaves it
unchanged. -/
structure Callback (V : Type) where
  id : Nat
  fn : HookContext V → V → Option V

/-- Modelled from the spec: the hook registry, a mapping from hook name to the
ordered list of callbacks registered under it. -/
abbrev Registry (V : Type) := String → List (Callback V)

/-- The registry before any `add_hook` call. -/
def emptyRegistry (V : Type) : Registry V := fun _ => []

/-- Modelled from the spec: `add_hook(name, fn)` appends `fn` to the callbacks
registered under `name` (insertion order). -/
def add_hook {V : Type} (reg : Registry V) (name : String) (cb : Callback V) :
    Registry V :=
  fun n => if n = name then reg n ++ [cb] else reg n

/-- Modelled from the spec: `remove_hook(name, fn)` removes `fn` from the
callbacks registered under `name` (identity comparison). -/
def remove_hook {V : Type} (reg : Registry V) (name : String)
    (cb : Callback V) : Registry V :=
  fun n => if n = name then (reg n).filter (fun c => c.id ≠ cb.id) else reg n

/-- Modelled from the spec: dispatch of one hook: fan out over the callbacks
in order, each invoked with `this = {state, hook}` and the dispatched value;
a non-`undefined` return overrides the running value.  Also records the trace
of (callback identity, context) pairs, to state which callbacks ran and what
`this` they saw. -/
def run_hooks {V : Type} (name : String) (value : V) :
    List (Callback V) → V × List (Nat × HookContext V)
      → V × List (Nat × HookContext V)
  | [], acc => acc
  | cb :: rest, acc =>
    let ctx : HookContext V := ⟨acc.1, name⟩
    run_hooks name value rest
      ((cb.fn ctx value).getD acc.1, acc.2 ++ [(cb.id, ctx)])

/-- Modelled from the spec: `call_hook(name, value)` — returns the running
value after all callbacks have run. -/
def call_hook {V : Type} (reg : Registry V) (name : String) (value : V) : V :=
  (run_hooks name value (reg name) (value, [])).1

/-- The invocation trace of `call_hook`: which callbacks ran, with which
`this` context. -/
def call_hook_trace {V : Type} (reg : Registry V) (name : String)
    (value : V) : List (Nat × HookContext V) :=
  (run_hooks name value (reg name) (value, [])).2

theorem run_hooks_none {V : Type} (name : String) (value : V)
    (cbs : List (Callback V))
    (h : ∀ cb ∈ cbs, ∀ ctx a, cb.fn ctx a = none) :
    ∀ s tr, (run_hooks name value cbs (s, tr)).1 = s ∧
      ∀ x ∈ (run_hooks name value cbs (s, tr)).2, x ∈ tr ∨ x.2.state = s := by
  induction cbs with
  | nil => exact fun s tr => ⟨rfl, fun x hx => Or.inl hx⟩
  | cons cb rest ih =>
    intro s tr
    have hcb : cb.fn ⟨s, name⟩ value = none := h cb (List.mem_cons_self cb rest) _ _
    have hrest : ∀ c ∈ rest, ∀ ctx a, c.fn ctx a = none :=
      fun c hc => h c (List.mem_cons_of_mem cb hc)
    simp only [run_hooks, hcb, Option.getD_none]
    refine ⟨(ih hrest s _).1, fun x hx => ?_⟩
    rcases (ih hrest s _).2 x hx with hin | hs
    · rcases List.mem_append.mp hin with h1 | h2
      · exact Or.inl h1
      · rw [List.mem_singleton.mp h2]
        exact Or.inr rfl
    · exact Or.inr hs

theorem run_hooks_trace {V : Type} (name : String) (value : V)
    (cbs : List (Callback V)) :
    ∀ s tr, ∀ x ∈ (run_hooks name value cbs (s, tr)).2,
      x ∈ tr ∨ (x.2.hook = name ∧ x.1 ∈ cbs.map Callback.id) := by
  induction cbs with
  | nil => exact fun s tr x hx => Or.inl hx
  | cons cb rest ih =>
    intro s tr x hx
    simp only [run_hooks] at hx
    rcases ih _ _ x hx with hin | ⟨hh, hid⟩
    · rcases List.mem_append.mp hin with h1 | h2
      · exact Or.inl h1
      · rw [List.mem_singleton.mp h2]
        exact Or.inr ⟨rfl, by simp⟩
    · exact Or.inr ⟨hh, by simp [hid]⟩

/-- C4: `call_hook` returns the value it was given whenever no registered
callback overrides it (every callback returns `undefined`); in particular
this covers a single registered callback that merely reads its argument. -/
theorem c4_call_hook_returns_input {V : Type} (reg : Registry V)
    (name : String) (v : V)
    (h : ∀ cb ∈ reg name, ∀ ctx a, cb.fn ctx a = none) :
    call_hook reg name v = v :=
  (run_hooks_none name v (reg name) h v []).1

theorem c4_call_hook_returns_input_witness :
    call_hook (add_hook (emptyRegistry Int) "hooks1"
        (Callback.mk 0 (fun _ _ => none))) "hooks1" 1 = 1 :=
  c4_call_hook_returns_input _ "hooks1" 1 (by
    intro cb hcb ctx a
    simp [add_hook, emptyRegistry] at hcb
    subst hcb
    rfl)

/-- C5: every callback invoked by `call_hook(name, value)` sees a `this`
context whose `hook` field is the hook's name; and (absent overrides) whose
`state` field is the dispatched value. -/
theorem c5_callback_context {V : Type} (reg : Registry V) (name : String)
    (v : V) :
    (∀ x ∈ call_hook_trace reg name v, x.2.hook = name) ∧
    ((∀ cb ∈ reg name, ∀ ctx a, cb.fn ctx a = none) →
      ∀ x ∈ call_hook_trace reg name v, x.2.state = v) := by
  constructor
  · intro x hx
    rcases run_hooks_trace name v (reg name) v [] x hx with hin | ⟨hh, _⟩
    · exact absurd hin (List.not_mem_nil x)
    · exact hh
  · intro h x hx
    rcases (run_hooks_none name v (reg name) h v []).2 x hx with hin | hs
    · exact absurd hin (List.not_mem_nil x)
    · exact hs

theorem c5_callback_context_witness :
    (∀ x ∈ call_hook_trace
        (add_hook (add_hook (emptyRegistry Int) "hooks2"
          (Callback.mk 0 (fun _ _ => none))) "hooks2"
          (Callback.mk 1 (fun _ _ => none))) "hooks2" 2,
      x.2.hook = "hooks2") ∧
    (∀ x ∈ call_hook_trace
        (add_hook (add_hook (emptyRegistry Int) "hooks2"
          (Callback.mk 0 (fun _ _ => none))) "hooks2"
          (Callback.mk 1 (fun _ _ => none))) "hooks2" 2,
      x.2.state = 2) := by
  refine ⟨(c5_callback_context _ "hooks2" 2).1,
    (c5_callback_context _ "hooks2" 2).2 ?_⟩
  intro cb hcb ctx a
  simp [add_hook, emptyRegistry] at hcb
  rcases hcb with hcb | hcb <;> subst hcb <;> rfl

/-- C6: callbacks registered under a name are kept in insertion order
(`add_hook` appends); after `add_hook(name, fn)` followed by
`remove_hook(name, fn)` the registry under `name` is as before, and a
subsequent `call_hook(name, value)` does not invoke `fn`. -/
theorem c6_remove_hook_cancels_add {V : Type} (reg : Registry V)
    (name : String) (cb : Callback V) (v : V)
    (hfresh : ∀ c ∈ reg name, c.id ≠ cb.id) :
    (add_hook reg name cb) name = reg name ++ [cb] ∧
    (remove_hook (add_hook reg name cb) name cb) name = reg name ∧
    ∀ x ∈ call_hook_trace (remove_hook (add_hook reg name cb) name cb) name v,
      x.1 ≠ cb.id := by
  have hadd : (add_hook reg name cb) name = reg name ++ [cb] := by
    simp [add_hook]
  have hrem : (remove_hook (add_hook reg name cb) name cb) name = reg name := by
    simp only [remove_hook, if_pos rfl, hadd, List.filter_append]
    rw [List.filter_eq_self.mpr, List.filter_cons]
    · simp
    · intro c hc
      simpa using hfresh c hc
  refine ⟨hadd, hrem, fun x hx => ?_⟩
  unfold call_hook_trace at hx
  rw [hrem] at hx
  rcases run_hooks_trace name v (reg name) v [] x hx with hin | ⟨_, hid⟩
  · exact absurd hin (List.not_mem_nil x)
  · rcases List.mem_map.mp hid with ⟨c, hc, hcid⟩
    rw [← hcid]
    exact hfresh c hc

theorem c6_remove_hook_cancels_add_witness :
    (add_hook (emptyRegistry Int) "hooks3" (Callback.mk 0 (fun _ a => some a)))
        "hooks3"
      = emptyRegistry Int "hooks3" ++ [Callback.mk 0 (fun _ a => some a)] ∧
    (remove_hook (add_hook (emptyRegistry Int) "hooks3"
        (Callback.mk 0 (fun _ a => some a))) "hooks3"
        (Callback.mk 0 (fun _ a => some a))) "hooks3"
      = emptyRegistry Int "hooks3" ∧
    ∀ x ∈ call_hook_trace (remove_hook (add_hook (emptyRegistry Int) "hooks3"
        (Callback.mk 0 (fun _ a => some a))) "hooks3"
        (Callback.mk 0 (fun _ a => some a))) "hooks3" 1,
      x.1 ≠ 0 :=
  c6_remove_hook_cancels_add (emptyRegistry Int) "hooks3"
    (Callback.mk 0 (fun _ a => some a)) 1
    (fun c hc => absurd hc (List.not_mem_nil c))

/-- The test `test('hooks')` of `part_000`: one callback `arg => called = arg`
(which returns its argument, overriding with the same value); the result of
`call_hook('hooks1', 1)` is `1` and the callback ran with state `1`. -/
theorem hooks_test_first :
    call_hook (add_hook (emptyRegistry Int) "hooks1"
        (Callback.mk 0 (fun _ a => some a))) "hooks1" 1 = 1 ∧
    call_hook_trace (add_hook (emptyRegistry Int) "hooks1"
        (Callback.mk 0 (fun _ a => some a))) "hooks1" 1
      = [(0, HookContext.mk 1 "hooks1")] :=
  ⟨rfl, rfl⟩

/-- The test `test('hooks this-value')` of `part_000`: with two callbacks
registered under `hooks2`, the second sees `this.state === 2` and
`this.hook === 'hooks2'` when `call_hook('hooks2', 2)` runs. -/
theorem hooks_test_this_value :
    call_hook_trace (add_hook (add_hook (emptyRegistry Int) "hooks2"
        (Callback.mk 0 (fun _ a => some a))) "hooks2"
        (Callback.mk 1 (fun _ _ => none))) "hooks2" 2
      = [(0, HookContext.mk 2 "hooks2"), (1, HookContext.mk 2 "hooks2")] :=
  rfl

/-- The test `test('hooks remove hook')` of `part_000`: after adding and
removing `func` under `hooks3`, `call_hook('hooks3', 1)` runs no callback. -/
theorem hooks_test_remove :
    call_hook (remove_hook (add_hook (emptyRegistry Int) "hooks3"
        (Callback.mk 0 (fun _ a => some a))) "hooks3"
        (Callback.mk 0 (fun _ a => some a))) "hooks3" 1 = 1 ∧
    call_hook_trace (remove_hook (add_hook (emptyRegistry Int) "hooks3"
        (Callback.mk 0 (fun _ a => some a))) "hooks3"
        (Callback.mk 0 (fun _ a => some a))) "hooks3" 1 = [] :=
  ⟨rfl, rfl⟩

/-! ## The public entry point and the `Wrapper`

From `src/src/hyperform.js`.  An options object is a record of possibly-absent
fields (`none` is JS `undefined`); `classes` is an object reference (`Nat`),
with `none` standing for a falsy value so that `if (! classes) classes = {}`
replaces it by a fresh empty object, modelled as reference `0`.  The
`Wrapper` constructor's observable effects that the claims are about are
recorded in the `Wrapper` structure: the bound form, the stored settings, the
`catch_submit(form, settings.revalidate === 'never')` flag and the
revalidation listeners attached by lines 137-148. -/

/-- The options accepted by `hyperform(form, {...})`. -/
structure Options where
  strict : Option Bool
  revalidate : Option String
  valid_event : Option Bool
  extend_fieldset : Option Bool
  novalidate_on_elements : Option Bool
  classes : Option Nat
deriving DecidableEq, Repr

/-- The settings object built at line 51:
`{ strict, revalidate, valid_event, extend_fieldset, classes, }` —
note: no `novalidate_on_elements` field. -/
structure Settings where
  strict : Bool
  revalidate : String
  valid_event : Bool
  extend_fieldset : Bool
  classes : Nat
deriving DecidableEq, Repr

/-- Lines 26-51 of `hyperform.js`: destructuring defaults and the
`=== undefined` defaulting of each option, then assembly of the settings
object.  `novalidate_on_elements` is defaulted like the others but does not
appear in the result. -/
def resolveSettings (o : Options) : Settings :=
  let strict := o.strict.getD false
  let revalidate := o.revalidate.getD (if strict then "onsubmit" else "hybrid")
  let valid_event := o.valid_event.getD (! strict)
  let extend_fieldset := o.extend_fieldset.getD (! strict)
  let _novalidate_on_elements := o.novalidate_on_elements.getD (! strict)
  let classes := o.classes.getD 0
  Settings.mk strict revalidate valid_event extend_fieldset classes

/-- Passing a resolved settings object back into `hyperform` as its options
argument (line 57: `hyperform(element, settings)`): every field the
destructuring reads is present except `novalidate_on_elements`, which the
settings object does not carry. -/
def settingsAsOptions (s : Settings) : Options :=
  Options.mk (some s.strict) (some s.revalidate) (some s.valid_event)
    (some s.extend_fieldset) none (some s.classes)

/-- A single (non-collection) argument to `hyperform`. -/
inductive SingleTarget where
  | htmlForm
  | fieldset
  | document
  | window
  | other
deriving DecidableEq, Repr

/-- The kinds of collections recognized at lines 53-55. -/
inductive CollectionKind where
  | nodeList
  | htmlCollection
  | array
deriving DecidableEq, Repr

/-- An argument to `hyperform`: a single target, or a NodeList /
HTMLCollection / Array of arguments. -/
inductive FormTarget where
  | single (t : SingleTarget)
  | collection (k : CollectionKind) (items : List FormTarget)

/-- One registered event listener: `addEventListener(event, revalidator,
useCapture)`. -/
structure ListenerReg where
  event : String
  capture : Bool
deriving DecidableEq, Repr

/-- Lines 137-148 of the `Wrapper` constructor: the revalidation listeners
attached for a given `settings.revalidate` value. -/
def revalidationListeners (revalidate : String) : List ListenerReg :=
  (if revalidate = "oninput" ∨ revalidate = "hybrid" then
    [ListenerReg.mk "keyup" false, ListenerReg.mk "change" false]
  else []) ++
  (if revalidate = "onblur" ∨ revalidate = "hybrid" then
    [ListenerReg.mk "blur" true]
  else [])

/-- The observable state of a constructed `Wrapper`: the bound form, the
stored settings, whether `catch_submit` was told to skip revalidation
(`settings.revalidate === 'never'`), and the attached revalidation
listeners. -/
structure Wrapper where
  form : FormTarget
  settings : Settings
  catchSubmitIgnored : Bool
  listeners : List ListenerReg

/-- The `Wrapper` constructor (lines 110-149) on a single target. -/
def mkWrapper (form : FormTarget) (settings : Settings) : Wrapper :=
  Wrapper.mk form settings (settings.revalidate = "never")
    (revalidationListeners settings.revalidate)

/-- The result of `hyperform`: a `Wrapper`, or an array of results. -/
inductive HResult where
  | wrapper (w : Wrapper)
  | list (rs : List HResult)

mutual

/-- Lines 25-61: resolve the options; on a NodeList/HTMLCollection/Array, map
`element => hyperform(element, settings)` over the members; otherwise return
`new Wrapper(form, settings)`. -/
def hyperform : FormTarget → Options → HResult
  | .collection _ items, o =>
    .list (hyperformEach items (settingsAsOptions (resolveSettings o)))
  | .single t, o => .wrapper (mkWrapper (.single t) (resolveSettings o))

/-- `Array.prototype.map.call(form, element => hyperform(element, settings))`. -/
def hyperformEach : List FormTarget → Options → List HResult
  | [], _ => []
  | t :: ts, o => hyperform t o :: hyperformEach ts o

end

theorem hyperformEach_eq_map (ts : List FormTarget) (o : Options) :
    hyperformEach ts o = ts.map (fun t => hyperform t o) := by
  induction ts with
  | nil => rfl
  | cons t ts ih => rw [hyperformEach, ih, List.map_cons]

theorem resolveSettings_settingsAsOptions (s : Settings) :
    resolveSettings (settingsAsOptions s) = s :=
  rfl

/-- C7: the constructor attaches `keyup` and `change` listeners iff
`revalidate` is `'oninput'` or `'hybrid'`, a capturing `blur` listener iff
`revalidate` is `'onblur'` or `'hybrid'`, and no revalidation listeners at all
for `'onsubmit'` and `'never'`. -/
theorem c7_revalidation_listeners (f : FormTarget) (s : Settings) :
    ((ListenerReg.mk "keyup" false ∈ (mkWrapper f s).listeners
        ∧ ListenerReg.mk "change" false ∈ (mkWrapper f s).listeners)
      ↔ (s.revalidate = "oninput" ∨ s.revalidate = "hybrid")) ∧
    (ListenerReg.mk "blur" true ∈ (mkWrapper f s).listeners
      ↔ (s.revalidate = "onblur" ∨ s.revalidate = "hybrid")) ∧
    ((s.revalidate = "onsubmit" ∨ s.revalidate = "never") →
      (mkWrapper f s).listeners = []) := by
  simp only [mkWrapper, revalidationListeners]
  by_cases h1 : s.revalidate = "oninput" <;>
    by_cases h2 : s.revalidate = "hybrid" <;>
      by_cases h3 : s.revalidate = "onblur" <;>
        simp_all

theorem c7_revalidation_listeners_witness :
    (mkWrapper (FormTarget.single SingleTarget.htmlForm)
      (Settings.mk true "onsubmit" false false 0)).listeners = [] :=
  (c7_revalidation_listeners (FormTarget.single SingleTarget.htmlForm)
    (Settings.mk true "onsubmit" false false 0)).2.2 (Or.inl rfl)

/-- C8: on a NodeList, HTMLCollection or Array, `hyperform` returns one result
per member, each obtained by applying `hyperform` to the member with the
resolved settings passed as options; resolution of those settings is stable,
so the members are processed with the same settings.  On a single target it
returns one `Wrapper` bound to that target and the resolved settings. -/
theorem c8_entry_point (k : CollectionKind) (items : List FormTarget)
    (o : Options) (t : SingleTarget) :
    hyperform (FormTarget.collection k items) o
      = HResult.list (items.map (fun e =>
          hyperform e (settingsAsOptions (resolveSettings o)))) ∧
    hyperform (FormTarget.single t) o
      = HResult.wrapper (mkWrapper (FormTarget.single t) (resolveSettings o)) ∧
    resolveSettings (settingsAsOptions (resolveSettings o))
      = resolveSettings o := by
  refine ⟨?_, ?_, rfl⟩
  · rw [hyperform, hyperformEach_eq_map]
  · rw [hyperform]

/-- C9: the settings `hyperform` builds and stores contain exactly `strict`,
`revalidate`, `valid_event`, `extend_fieldset` and `classes` (the fields of
`Settings`); the accepted and defaulted `novalidate_on_elements` option is
dropped: the outcome of `hyperform` is independent of it. -/
theorem c9_novalidate_on_elements_dropped (f : FormTarget) (o : Options)
    (v v' : Option Bool) :
    hyperform f (Options.mk o.strict o.revalidate o.valid_event
        o.extend_fieldset v o.classes)
      = hyperform f (Options.mk o.strict o.revalidate o.valid_event
        o.extend_fieldset v' o.classes) ∧
    resolveSettings (Options.mk o.strict o.revalidate o.valid_event
        o.extend_fieldset v o.classes)
      = resolveSettings o := by
  constructor
  · cases f with
    | single t =>
      rw [hyperform, hyperform]
      rfl
    | collection k items =>
      rw [hyperform, hyperform]
      rfl
  · rfl

/-! ## Implicit submission: the `keypress` listener of `catch_submit`

From `src/unnamed/part_001`.  `reportValidity` (imported from
`polyfills/reportValidity`, absent from `src/`) validates a form, reports
problems and returns whether the form is valid; its outcome is modelled by
the form's `valid` field.  The listener's DOM side effects
(`preventDefault`, `submit.click()`, `form.submit()`) are recorded as a
`KeypressAction`. -/

/-- Modelled from the spec: the `text` export of `components/types` (absent
from `src/`) — the text-like input types that take part in implicit
submission.  The claims only use membership in this list, so its exact
contents do not decide them. -/
def text_types : List String :=
  ["text", "search", "tel", "url", "email", "password"]

/-- A member of `form.elements`: its name and its `type`. -/
structure FormElement where
  name : String
  type : String
deriving DecidableEq, Repr

/-- A form: its `novalidate` attribute, the (modelled) outcome of
`reportValidity` on it, and its elements in form order. -/
structure Form where
  novalidate : Bool
  valid : Bool
  elements : List FormElement
deriving DecidableEq, Repr

/-- The target of a keypress event. -/
structure EventTarget where
  nodeName : String
  type : String
  form : Option Form
deriving DecidableEq, Repr

/-- A keypress event. -/
structure KeyEvent where
  defaultPrevented : Bool
  keyCode : Nat
  target : EventTarget
deriving DecidableEq, Repr

/-- What the keypress listener did: nothing; `preventDefault()` plus a click
on a submit/image element; or `check(event)` — `preventDefault()`,
`reportValidity(form)` and, when that returned true, `form.submit()`
(`submitted` records whether the form was submitted). -/
inductive KeypressAction where
  | nothing
  | clickSubmitter (el : FormElement)
  | validateAndSubmit (submitted : Bool)
deriving DecidableEq, Repr

/-- Lines 55-61 of `part_001`: scan `form.elements` in order for the first
element whose type is `'image'` or `'submit'`. -/
def findSubmitter : List FormElement → Option FormElement
  | [] => none
  | el :: rest =>
    if el.type = "image" ∨ el.type = "submit" then some el
    else findSubmitter rest

/-- The `keypress` listener of `part_001` (lines 40-70): on an Enter keypress
(keyCode 13) on an `INPUT` of a text type inside a form without `novalidate`,
click the first submit/image element if the form has one, else run
`check(event)` (validate, and submit the form when valid).  The guard's
conjuncts are evaluated in source order; they are pure, so the grouping does
not matter. -/
def keypressListener (event : KeyEvent) : KeypressAction :=
  match event.target.form with
  | none => .nothing
  | some form =>
    if ¬ event.defaultPrevented
        ∧ event.keyCode = 13
        ∧ event.target.nodeName = "INPUT"
        ∧ event.target.type ∈ text_types
        ∧ ¬ form.novalidate then
      match findSubmitter form.elements with
      | some submit => .clickSubmitter submit
      | none => .validateAndSubmit form.valid
    else .nothing

/-- Whether the action called `event.preventDefault()`. -/
def preventsDefault : KeypressAction → Bool
  | .nothing => false
  | .clickSubmitter _ => true
  | .validateAndSubmit _ => true

theorem findSubmitter_first (pre : List FormElement) (el : FormElement)
    (post : List FormElement)
    (hpre : ∀ x ∈ pre, ¬ (x.type = "image" ∨ x.type = "submit"))
    (hel : el.type = "image" ∨ el.type = "submit") :
    findSubmitter (pre ++ el :: post) = some el := by
  induction pre with
  | nil =>
    rw [List.nil_append, findSubmitter, if_pos hel]
  | cons x t ih =>
    rw [List.cons_append, findSubmitter,
      if_neg (hpre x (List.mem_cons_self x t))]
    exact ih (fun y hy => hpre y (List.mem_cons_of_mem x hy))

theorem findSubmitter_none (l : List FormElement)
    (h : ∀ x ∈ l, ¬ (x.type = "image" ∨ x.type = "submit")) :
    findSubmitter l = none := by
  induction l with
  | nil => rfl
  | cons x t ih =>
    rw [findSubmitter, if_neg (h x (List.mem_cons_self x t))]
    exact ih (fun y hy => h y (List.mem_cons_of_mem x hy))

/-- C10: for an unprevented Enter keypress (keyCode 13) on a text-type INPUT
inside a form without `novalidate`: if the form has an element of type
`'image'` or `'submit'`, the listener prevents the default action and clicks
the first such element in form order, and does not validate or submit the
form itself; only when no such element exists does it run `check` — validate
the form and call `form.submit()` exactly when it is valid.  Either way the
default action is prevented. -/
theorem c10_enter_keypress (ev : KeyEvent) (f : Form)
    (h1 : ev.defaultPrevented = false)
    (h2 : ev.keyCode = 13)
    (h3 : ev.target.nodeName = "INPUT")
    (h4 : ev.target.type ∈ text_types)
    (h5 : ev.target.form = some f)
    (h6 : f.novalidate = false) :
    (∀ pre el post, f.elements = pre ++ el :: post →
        (∀ x ∈ pre, ¬ (x.type = "image" ∨ x.type = "submit")) →
        (el.type = "image" ∨ el.type = "submit") →
        keypressListener ev = KeypressAction.clickSubmitter el) ∧
    ((∀ x ∈ f.elements, ¬ (x.type = "image" ∨ x.type = "submit")) →
      keypressListener ev = KeypressAction.validateAndSubmit f.valid) ∧
    preventsDefault (keypressListener ev) = true := by
  have hrun : keypressListener ev
      = match findSubmitter f.elements with
        | some submit => KeypressAction.clickSubmitter submit
        | none => KeypressAction.validateAndSubmit f.valid := by
    simp only [keypressListener, h5]
    rw [if_pos]
    exact ⟨by simp [h1], h2, h3, h4, by simp [h6]⟩
  refine ⟨?_, ?_, ?_⟩
  · intro pre el post heq hpre hel
    rw [hrun, heq, findSubmitter_first pre el post hpre hel]
  · intro hall
    rw [hrun, findSubmitter_none f.elements hall]
  · rw [hrun]
    cases findSubmitter f.elements <;> rfl

theorem c10_enter_keypress_witness :
    keypressListener (KeyEvent.mk false 13 (EventTarget.mk "INPUT" "text"
        (some (Form.mk false true
          [FormElement.mk "t" "text", FormElement.mk "s" "submit"]))))
      = KeypressAction.clickSubmitter (FormElement.mk "s" "submit") :=
  (c10_enter_keypress
    (KeyEvent.mk false 13 (EventTarget.mk "INPUT" "text"
      (some (Form.mk false true
        [FormElement.mk "t" "text", FormElement.mk "s" "submit"]))))
    (Form.mk false true
      [FormElement.mk "t" "text", FormElement.mk "s" "submit"])
    rfl rfl rfl (by decide) rfl rfl).1
    [FormElement.mk "t" "text"] (FormElement.mk "s" "submit") [] rfl
    (by decide) (Or.inr rfl)

end Hyperform
